import Mathlib

set_option maxRecDepth 8000

/- Verification of the ik-prototype 2D skeletal animation and physics
   engine. The Rust sources are embedded shallowly: machine floats are
   modelled as exact rationals, and the few numeric routines with no
   exact rational counterpart (the fast inverse square root used by the
   constraint solver, the square root, the trigonometric functions and
   the is_left cross-product helper living in the util module that is
   not part of the provided sources) are abstracted as explicit function
   parameters, so every statement quantifies over them. -/

-- ===========================================================================
-- util: 2D vector (src/src/lean/util.rs, Vec2)
-- ===========================================================================

structure Vec2 where
  x : Rat
  y : Rat
deriving DecidableEq

def Vec2.zero : Vec2 := ⟨0, 0⟩

instance : Inhabited Vec2 := ⟨Vec2.zero⟩

def Vec2.add (a b : Vec2) : Vec2 := ⟨a.x + b.x, a.y + b.y⟩

def Vec2.sub (a b : Vec2) : Vec2 := ⟨a.x - b.x, a.y - b.y⟩

/-- Scalar multiplication, Rust impl Mul of f32 for Vec2. -/
def Vec2.mulS (a : Vec2) (s : Rat) : Vec2 := ⟨a.x * s, a.y * s⟩

/-- Scalar division, Rust impl Div of f32 for Vec2. -/
def Vec2.divS (a : Vec2) (s : Rat) : Vec2 := ⟨a.x / s, a.y / s⟩

/-- Componentwise scaling, Rust Vec2::scale. -/
def Vec2.scale (a u : Vec2) : Vec2 := ⟨a.x * u.x, a.y * u.y⟩

/-- Dot product, Rust impl Mul of Vec2 for Vec2. -/
def Vec2.dot (a b : Vec2) : Rat := a.x * b.x + a.y * b.y

/-- Squared length; Rust Vec2::len is its square root. -/
def Vec2.lenSq (a : Vec2) : Rat := a.x * a.x + a.y * a.y

-- ===========================================================================
-- particle.rs: Particle
-- ===========================================================================

structure Particle where
  position : Vec2
  prev_position : Vec2
  rest_position : Vec2
  constant_force : Vec2
  acceleration : Vec2
  inv_mass : Rat
deriving DecidableEq

instance : Inhabited Particle :=
  ⟨⟨Vec2.zero, Vec2.zero, Vec2.zero, Vec2.zero, Vec2.zero, 0⟩⟩

def Particle.new (position : Vec2) : Particle :=
  ⟨position, position, position, Vec2.zero, Vec2.zero, 1⟩

def Particle.with_inv_mass (position : Vec2) (inv_mass : Rat) : Particle :=
  ⟨position, position, position, Vec2.zero, Vec2.zero, inv_mass⟩

def Particle.set_invmass (p : Particle) (mass : Rat) : Particle :=
  { p with inv_mass := mass }

def Particle.set_position (p : Particle) (v : Vec2) : Particle :=
  { p with position := v, prev_position := v }

def Particle.apply_force (p : Particle) (force : Vec2) : Particle :=
  { p with position := p.position.add force }

/-- Particle::at_rest. Rust compares (position - rest_position).len().abs()
with 0.125; over exact nonnegative arithmetic len v > 1/8 holds iff
lenSq v > 1/64, so the squared comparison is used to stay inside rational
arithmetic. Returns the at-rest flag together with the updated particle
(the Rust method mutates rest_position in place). -/
def Particle.at_rest (p : Particle) : Bool × Particle :=
  if (p.position.sub p.rest_position).lenSq > 1/64 then
    (false, { p with rest_position := p.position })
  else
    (true, p)

-- ===========================================================================
-- particle.rs: constraints (StickConstraint, AngularConstraint)
-- ===========================================================================

/-- The Constraint trait objects that occur in the engine: the two concrete
implementations StickConstraint and AngularConstraint as a sum type. -/
inductive Constraint where
  | stick (name : String) (a b : Nat) (rest_length : Rat) (visual : Bool)
  | angular (name : String) (p e j : Nat) (rest_length : Rat)
      (is_left : Bool) (visual : Bool)
deriving DecidableEq

def Constraint.name : Constraint → String
  | .stick n _ _ _ _ => n
  | .angular n _ _ _ _ _ _ => n

def Constraint.visual : Constraint → Bool
  | .stick _ _ _ _ v => v
  | .angular _ _ _ _ _ _ v => v

def Constraint.first_particle : Constraint → Nat
  | .stick _ a _ _ _ => a
  | .angular _ _ e _ _ _ _ => e

def Constraint.second_particle : Constraint → Nat
  | .stick _ _ b _ _ => b
  | .angular _ _ _ j _ _ _ => j

/-- StickConstraint::solve and AngularConstraint::solve. The fast inverse
square root (a bit-level f32 algorithm producing an approximation of
sqrt of the dot product) is abstracted as the parameter fisr mapping the
dot product to the approximated length; the Vec2::is_left side test of
the util module (2D cross-product sign, not among the provided sources)
is abstracted as isLeftF, applied as isLeftF end parent joint. -/
def Constraint.solve (fisr : Rat → Rat) (isLeftF : Vec2 → Vec2 → Vec2 → Bool) :
    Constraint → List Particle → List Particle
  | .stick _ a b rest _, particles =>
    let i1 := (particles.getD a default).inv_mass
    let i2 := (particles.getD b default).inv_mass
    if 0 < i1 + i2 then
      let p1 := (particles.getD a default).position
      let p2 := (particles.getD b default).position
      let delta := p2.sub p1
      let delta_length := fisr (delta.dot delta)
      let diff := (delta_length - rest) / (delta_length * (i1 + i2))
      let particles1 := particles.set a
        { particles.getD a default with position := p1.add ((delta.mulS i1).mulS diff) }
      particles1.set b
        { particles1.getD b default with position := p2.sub ((delta.mulS i2).mulS diff) }
    else particles
  | .angular _ p e _j rest is_left _, particles =>
    let i1 := (particles.getD p default).inv_mass
    let i2 := (particles.getD e default).inv_mass
    if 0 < i1 + i2 then
      let parent := (particles.getD p default).position
      let endp := (particles.getD e default).position
      let delta := endp.sub parent
      let delta_length := fisr (delta.dot delta)
      if delta_length < rest
          && (is_left == isLeftF endp parent (particles.getD _j default).position) then
        let diff := (delta_length - rest) / (delta_length * (i1 + i2))
        let particles1 := particles.set p
          { particles.getD p default with position := parent.add ((delta.mulS i1).mulS diff) }
        particles1.set e
          { particles1.getD e default with position := endp.sub ((delta.mulS i2).mulS diff) }
      else particles
    else particles

-- ===========================================================================
-- particle.rs: ParticleSystem
-- ===========================================================================

structure ParticleSystem where
  particles : List Particle
  constraints : List Constraint
  iterations : Nat
  bounds : Vec2 × Vec2
  activity : Nat
deriving DecidableEq

def ParticleSystem.new (max_particles iterations : Nat) : ParticleSystem :=
  { particles := List.replicate max_particles (Particle.new Vec2.zero)
    constraints := []
    iterations := iterations
    bounds := (Vec2.zero, Vec2.zero)
    activity := 10 }

def ParticleSystem.active (s : ParticleSystem) : Bool := 0 < s.activity

def ParticleSystem.activate (s : ParticleSystem) : ParticleSystem :=
  { s with activity := 10 }

def ParticleSystem.add_constraint (s : ParticleSystem) (c : Constraint) :
    ParticleSystem :=
  ParticleSystem.activate { s with constraints := s.constraints ++ [c] }

def ParticleSystem.accumulate_forces (gravity : Vec2)
    (particles : List Particle) : List Particle :=
  particles.map (fun p => { p with acceleration := gravity.add p.constant_force })

def ParticleSystem.verlet (time_step : Rat) (particles : List Particle) :
    List Particle :=
  particles.map (fun p =>
    let current_pos := p.position
    let change := (p.position.sub p.prev_position).add
      ((p.acceleration.mulS time_step).mulS time_step)
    { p with position := p.position.add (change.mulS p.inv_mass)
             prev_position := current_pos })

/-- The sentinel values the bounds box is reset to at the start of every
relaxation pass. -/
def boundsReset : Vec2 × Vec2 := (⟨10000, 10000⟩, ⟨-10000, -10000⟩)

def boundsInclude (b : Vec2 × Vec2) (v : Vec2) : Vec2 × Vec2 :=
  (⟨min b.1.x v.x, min b.1.y v.y⟩, ⟨max b.2.x v.x, max b.2.y v.y⟩)

/-- The per-particle part of one relaxation pass in satisfy_constraints:
invoke the collider, test at_rest (recording whether any particle is still
active), and fold the position into the bounds box. -/
def ParticleSystem.colliderPass (collider : Particle → Particle) :
    List Particle → Vec2 × Vec2 → Bool → List Particle × (Vec2 × Vec2) × Bool
  | [], bounds, any => ([], bounds, any)
  | p :: rest, bounds, any =>
    let p1 := collider p
    let ra := p1.at_rest
    let any1 := if !ra.1 then true else any
    let bounds1 := boundsInclude bounds ra.2.position
    let res := ParticleSystem.colliderPass collider rest bounds1 any1
    (ra.2 :: res.1, res.2)

/-- The iteration loop of ParticleSystem::satisfy_constraints. -/
def ParticleSystem.satisfyLoop (fisr : Rat → Rat)
    (isLeftF : Vec2 → Vec2 → Vec2 → Bool) (collider : Particle → Particle)
    (constraints : List Constraint) :
    Nat → List Particle → Vec2 × Vec2 → Bool →
      List Particle × (Vec2 × Vec2) × Bool
  | 0, particles, bounds, any => (particles, bounds, any)
  | n + 1, particles, _, any =>
    let res := ParticleSystem.colliderPass collider particles boundsReset any
    let particles1 := constraints.foldl
      (fun ps c => Constraint.solve fisr isLeftF c ps) res.1
    ParticleSystem.satisfyLoop fisr isLeftF collider constraints n
      particles1 res.2.1 res.2.2

/-- ParticleSystem::satisfy_constraints: runs the relaxation passes and
returns the particles, the bounds box, and the any_particle_active flag. -/
def ParticleSystem.satisfy_constraints (fisr : Rat → Rat)
    (isLeftF : Vec2 → Vec2 → Vec2 → Bool) (collider : Particle → Particle)
    (iterations : Nat) (particles : List Particle)
    (constraints : List Constraint) (bounds : Vec2 × Vec2) :
    List Particle × (Vec2 × Vec2) × Bool :=
  ParticleSystem.satisfyLoop fisr isLeftF collider constraints iterations
    particles bounds false

def ParticleSystem.step (fisr : Rat → Rat)
    (isLeftF : Vec2 → Vec2 → Vec2 → Bool) (s : ParticleSystem)
    (time_step : Rat) (gravity : Vec2) (collider : Particle → Particle) :
    ParticleSystem :=
  if 0 < s.activity then
    let ps := ParticleSystem.accumulate_forces gravity s.particles
    let ps1 := ParticleSystem.verlet time_step ps
    let res := ParticleSystem.satisfy_constraints fisr isLeftF collider
      s.iterations ps1 s.constraints s.bounds
    { s with particles := res.1
             bounds := res.2.1
             activity := if res.2.2 then s.activity else s.activity - 1 }
  else s

-- ===========================================================================
-- ragdoll.rs: Ragdoll
-- ===========================================================================

structure Ragdoll where
  joints : List Particle
  constraints : List Constraint
  constraint_names : List String
  constraint_name_map : List (String × Nat)
  joint_constraint_map : List (Nat × List Nat)
  steps_until_rest : Nat
  bounds : Vec2 × Vec2
deriving DecidableEq

/-- HashMap::insert modelled on association lists: a later insert for the
same key overrides the earlier binding. -/
def aInsert {α β : Type} [DecidableEq α] (m : List (α × β)) (k : α) (v : β) :
    List (α × β) :=
  if (m.lookup k).isSome then
    m.map (fun kv => if kv.1 = k then (k, v) else kv)
  else
    m ++ [(k, v)]

/-- Appends a value to the list entry of a key (used for the
joint -> constraint indices adjacency map). -/
def aAppend {α : Type} [DecidableEq α] (m : List (α × List Nat)) (k : α)
    (v : Nat) : List (α × List Nat) :=
  m.map (fun kv => if kv.1 = k then (kv.1, kv.2 ++ [v]) else kv)

/-- Ragdoll::rebuild_constraints: recomputes constraint_names,
constraint_name_map and joint_constraint_map from the constraint list. -/
def Ragdoll.rebuild_constraints (r : Ragdoll) : Ragdoll :=
  let jcm0 : List (Nat × List Nat) :=
    (List.range r.joints.length).map (fun i => (i, []))
  let folded := r.constraints.foldl
    (fun (acc : (List (Nat × List Nat)) × (List (String × Nat)) × List String × Nat) c =>
      let jcm := aAppend (aAppend acc.1 c.first_particle acc.2.2.2)
        c.second_particle acc.2.2.2
      let cnm := aInsert acc.2.1 c.name acc.2.2.2
      (jcm, cnm, acc.2.2.1 ++ [c.name], acc.2.2.2 + 1))
    (jcm0, [], [], 0)
  { r with joint_constraint_map := folded.1
           constraint_name_map := folded.2.1
           constraint_names := folded.2.2.1 }

def Ragdoll.new (joints : List Particle) (constraints : List Constraint) :
    Ragdoll :=
  Ragdoll.rebuild_constraints
    { joints := joints
      constraints := constraints
      constraint_names := []
      constraint_name_map := []
      joint_constraint_map := []
      steps_until_rest := 10
      bounds := (Vec2.zero, Vec2.zero) }

def Ragdoll.at_rest (r : Ragdoll) : Bool := r.steps_until_rest = 0

def Ragdoll.constraint_points (r : Ragdoll) (name : String) : Vec2 × Vec2 :=
  match r.constraint_name_map.lookup name with
  | some index =>
    let c := r.constraints.getD index (Constraint.stick "" 0 0 0 false)
    ((r.joints.getD c.first_particle default).position,
     (r.joints.getD c.second_particle default).position)
  | none => (Vec2.zero, Vec2.zero)

/-- Ragdoll::step: early return once at rest, otherwise one Verlet update
followed by a single relaxation pass, decrementing steps_until_rest
(saturating) on a quiescent pass. -/
def Ragdoll.step (fisr : Rat → Rat) (isLeftF : Vec2 → Vec2 → Vec2 → Bool)
    (r : Ragdoll) (dt : Rat) (gravity : Vec2)
    (collider : Particle → Particle) : Ragdoll :=
  if r.steps_until_rest = 0 then r
  else
    let js := ParticleSystem.accumulate_forces gravity r.joints
    let js1 := ParticleSystem.verlet dt js
    let res := ParticleSystem.satisfy_constraints fisr isLeftF collider 1 js1
      r.constraints r.bounds
    { r with joints := res.1
             bounds := res.2.1
             steps_until_rest :=
               if res.2.2 then r.steps_until_rest else r.steps_until_rest - 1 }

/-- Ragdoll::apply_force: displaces every joint by the force direction
scaled with strength and an inverse-distance falloff. The square root in
Vec2::len is abstracted as sqrtF applied to the squared length. -/
def Ragdoll.apply_force (sqrtF : Rat → Rat) (r : Ragdoll) (local_origin : Vec2)
    (force : Vec2) (width : Rat) : Ragdoll :=
  let strength := sqrtF force.lenSq
  if 0 < strength then
    let dir := force.divS strength
    { r with joints := r.joints.map (fun joint =>
        let d := 1 / (max ((sqrtF ((joint.position.sub local_origin).lenSq)) / (max width 1)) 1)
        joint.apply_force ((dir.mulS strength).mulS d)) }
  else r

/-- The retain test inside Ragdoll::split_off_joint, written with exactly
the Rust operator precedence: is_crossing =
(not visual AND first in left AND second in right) OR
(second in left AND first in right). -/
def Ragdoll.isCrossing (left_points right_points : List Nat)
    (c : Constraint) : Bool :=
  (!c.visual && (left_points.contains c.first_particle
      && right_points.contains c.second_particle))
    || (left_points.contains c.second_particle
      && right_points.contains c.first_particle)

/-- The constraints that survive the retain call of split_off_joint. -/
def Ragdoll.splitRetain (left_points right_points : List Nat)
    (constraints : List Constraint) : List Constraint :=
  constraints.filter (fun c => !Ragdoll.isCrossing left_points right_points c)

/-- HashSet::insert on the list model of a set of joint indices. -/
def insertPoint (points : List Nat) (j : Nat) : List Nat :=
  if points.contains j then points else points ++ [j]

/-- Ragdoll::find_points_behind_constraint: flood fill across visual
constraints, never crossing the target constraint. The Rust recursion
terminates because every call inserts an unvisited joint; the embedding
makes this explicit with a fuel argument bounding the recursion depth
(any fuel of at least the joint count computes the complete set). -/
def Ragdoll.findPointsBehind (r : Ragdoll) :
    Nat → Nat → Nat → List Nat → List Nat
  | 0, _, _, points => points
  | fuel + 1, target, joint, points =>
    ((r.joint_constraint_map.lookup joint).getD []).foldl
      (fun pts ci =>
        if ci ≠ target then
          match r.constraints.get? ci with
          | some c =>
            if c.visual then
              let pts1 :=
                if pts.contains c.first_particle then pts
                else Ragdoll.findPointsBehind r fuel target c.first_particle pts
              if pts1.contains c.second_particle then pts1
              else Ragdoll.findPointsBehind r fuel target c.second_particle pts1
            else pts
          | none => pts
        else pts)
      (insertPoint points joint)

-- ===========================================================================
-- animation.rs: animation data, instances, animator
-- ===========================================================================

/-- The cubic_bezier helper of animation.rs (0.5 written as 1/2). -/
def cubic_bezier (p0 p1 p2 p3 t : Rat) : Rat :=
  p1 + 1/2 * t * (p2 - p0 + t * (2*p0 - 5*p1 + 4*p2 - p3
    + t * (3*(p1 - p2) + p3 - p0)))

/-- Truncation toward zero, the integer part used by the Rust f32
remainder operator. -/
def qtrunc (q : Rat) : Int := if 0 ≤ q then q.floor else q.ceil

/-- The Rust floating remainder a % b (sign of the dividend). -/
def qrem (a b : Rat) : Rat := a - b * (qtrunc (a / b) : Int)

/-- AnimationFrameBone: a bone name with an angle contribution. -/
abbrev AnimationFrameBone := String × Rat

structure AnimationData where
  duration : Rat
  key_frames : List (Rat × List AnimationFrameBone)
deriving DecidableEq

structure AnimationInstance where
  time : Rat
  blend : Rat
  speed : Rat
  key_index : Nat
  data : AnimationData
deriving DecidableEq

def AnimationInstance.new (data : AnimationData) (speed : Rat) :
    AnimationInstance :=
  { time := 0, blend := 0, speed := speed, key_index := 0, data := data }

/-- AnimationInstance::update: advance time, loop or advance the key,
recompute the blend factor between the previous and next key. -/
def AnimationInstance.update (inst : AnimationInstance) (dt : Rat) :
    AnimationInstance :=
  let duration := inst.data.duration
  let key_count := inst.data.key_frames.length
  let next_offset :=
    (inst.data.key_frames.getD ((inst.key_index + 1) % key_count) (0, [])).1
  let time := if 0 < inst.speed then inst.time + dt * inst.speed else inst.time
  let tk : Rat × Nat :=
    if next_offset = 0 ∧ duration ≤ time then (time - duration, 0)
    else if 0 < next_offset ∧ next_offset ≤ time then
      (time, (inst.key_index + 1) % key_count)
    else (time, inst.key_index)
  let prev_offset := (inst.data.key_frames.getD tk.2 (0, [])).1
  let next_offset1 :=
    (inst.data.key_frames.getD ((tk.2 + 1) % key_count) (0, [])).1
  let delta := qrem ((next_offset1 - prev_offset) + duration) duration
  let blend :=
    if delta = 0 then 1
    else 1 / delta * (qrem ((tk.1 - prev_offset) + duration) duration)
  { inst with time := tk.1, key_index := tk.2, blend := blend }

def AnimationInstance.reset (inst : AnimationInstance) : AnimationInstance :=
  { inst with time := 0, blend := 0, speed := 0, key_index := 0 }

/-- AnimationInstance::blend (renamed, the record field of the same name
exists): the bone values of the current key interpolated toward the next
key with the eased blend factor. -/
def AnimationInstance.blendFrames (inst : AnimationInstance) :
    List AnimationFrameBone :=
  let key_count := inst.data.key_frames.length
  let prev_values := (inst.data.key_frames.getD inst.key_index (0, [])).2
  let next_values :=
    (inst.data.key_frames.getD ((inst.key_index + 1) % key_count) (0, [])).2
  prev_values.map (fun p =>
    match next_values.find? (fun n => n.1 = p.1) with
    | some n => (p.1, cubic_bezier p.2 p.2 n.2 n.2 inst.blend)
    | none => p)

/-- AnimationInstance::apply_to: adds value * factor onto the matching
frame-bone entries. -/
def AnimationInstance.apply_to (inst : AnimationInstance)
    (bones : List AnimationFrameBone) (factor : Rat) :
    List AnimationFrameBone :=
  let values := inst.blendFrames
  bones.map (fun b =>
    match values.find? (fun v => v.1 = b.1) with
    | some v => (b.1, b.2 + v.2 * factor)
    | none => b)

structure AnimatorState where
  animations : List AnimationInstance
deriving DecidableEq

def AnimatorState.update (st : AnimatorState) (dt speed : Rat) :
    AnimatorState :=
  ⟨st.animations.map (fun a => AnimationInstance.update { a with speed := speed } dt)⟩

def AnimatorState.reset (st : AnimatorState) : AnimatorState :=
  ⟨st.animations.map AnimationInstance.reset⟩

def AnimatorState.apply_to_bones (st : AnimatorState) (factor : Rat)
    (bones : List AnimationFrameBone) : List AnimationFrameBone :=
  st.animations.foldl (fun bs a => a.apply_to bs factor) bones

structure Animator where
  default_blend : Rat
  blends : List ((String × String) × Rat)
  speeds : List (String × Rat)
  states : List (String × AnimatorState)
  blend_duration : Rat
  blend_timer : Rat
  previous : Option String
  current : Option String
deriving DecidableEq

/-- AnimatorBuilder::new().build(): the animator a fresh Skeleton holds. -/
def Animator.build_default : Animator :=
  { default_blend := 0, blends := [], speeds := [], states := []
    blend_duration := 0, blend_timer := 0, previous := none, current := none }

/-- Animator::set_speed: overwrite or insert the per-state speed factor. -/
def Animator.set_speed (a : Animator) (state : String) (factor : Rat) :
    Animator :=
  if (a.speeds.lookup state).isSome then
    { a with speeds :=
        a.speeds.map (fun kv => if kv.1 = state then (kv.1, factor) else kv) }
  else
    { a with speeds := a.speeds ++ [(state, factor)] }

/-- The speed Animator::update reads for a state:
speeds.get(state).cloned().unwrap_or(1.0). -/
def Animator.speedFor (a : Animator) (state : String) : Rat :=
  (a.speeds.lookup state).getD 1

/-- Animator::transition_to: no-op when already in the requested state or
when the state does not exist; otherwise reset the target state, shift
current to previous and pick the blend duration by priority. -/
def Animator.transition_to (a : Animator) (state : String) : Animator :=
  if a.current = some state then a
  else
    match a.states.lookup state with
    | none => a
    | some _st =>
      let states := a.states.map
        (fun kv => if kv.1 = state then (kv.1, AnimatorState.reset kv.2) else kv)
      let previous := a.current
      let blend_duration :=
        match previous with
        | some prev =>
          match a.blends.lookup (prev, state) with
          | some d => d
          | none =>
            match a.blends.lookup ("*", state) with
            | some d => d
            | none => (a.blends.lookup (prev, "*")).getD a.default_blend
        | none => a.default_blend
      { a with states := states, previous := previous, current := some state
               blend_duration := blend_duration, blend_timer := 0 }

/-- Animator::update: advance the blend timer, apply the previous state
with weight 1 - eased factor and the current state with the eased factor.
Returns the updated animator together with the updated frame bones. -/
def Animator.update (a : Animator) (dt : Rat)
    (bones : List AnimationFrameBone) : Animator × List AnimationFrameBone :=
  let blend_timer := min (a.blend_timer + dt) a.blend_duration
  let blend_factor := cubic_bezier 0 0 1 1 ((1 / a.blend_duration) * blend_timer)
  let sb1 : List (String × AnimatorState) × List AnimationFrameBone :=
    match a.previous with
    | some prev =>
      let speed := Animator.speedFor a prev
      match a.states.lookup prev with
      | some st =>
        if 0 < 1 - blend_factor then
          let st1 := AnimatorState.update st dt speed
          let bs := AnimatorState.apply_to_bones st1 (1 - blend_factor) bones
          (a.states.map (fun kv => if kv.1 = prev then (kv.1, st1) else kv), bs)
        else (a.states, bones)
      | none => (a.states, bones)
    | none => (a.states, bones)
  let sb2 : List (String × AnimatorState) × List AnimationFrameBone :=
    match a.current with
    | some cur =>
      let speed := Animator.speedFor a cur
      match sb1.1.lookup cur with
      | some st =>
        let st1 := AnimatorState.update st dt speed
        let bs := AnimatorState.apply_to_bones st1 blend_factor sb1.2
        (sb1.1.map (fun kv => if kv.1 = cur then (kv.1, st1) else kv), bs)
      | none => sb1
    | none => sb1
  ({ a with blend_timer := blend_timer, states := sb2.1 }, sb2.2)

-- ===========================================================================
-- library/stick_figure.rs: the animation-state selection of draw
-- ===========================================================================

/-- Modelled from the spec: f32_equals lives in the util module that is
not among the provided sources; the spec phrases its use here as the sign
of vx being equal to the facing x, which over the exact rational
embedding is plain equality. -/
def f32_equals (a b : Rat) : Bool := a = b

/-- Rust f32::signum restricted to the rational embedding (positive zero
has sign +1). -/
def qsignum (q : Rat) : Rat := if 0 ≤ q then 1 else -1

/-- The animation-state selection in StickFigure::draw: chooses
Jump / Run / Back / Idle from the grounded flag, the x velocity and the
facing x sign, setting the per-state animation speed before the
transition. 3.5 is written 7/2; velocity_backwards_factor is the config
scalar of that name. Note the state key the run speed is stored under. -/
def StickFigure.updateAnimationState (velocity_backwards_factor : Rat)
    (animator : Animator) (is_grounded : Bool) (vx : Rat) (facing_x : Rat) :
    Animator :=
  let run_factor := |1 / (7/2) * vx|
  let walk_backwards_factor := |velocity_backwards_factor / (7/2 * (1/2)) * vx|
  if !is_grounded then
    (animator.set_speed "Jump" (min (max |vx| 1) (3/2))).transition_to "Jump"
  else if 1/2 < |vx| then
    if f32_equals (qsignum vx) facing_x then
      (animator.set_speed "RuN" run_factor).transition_to "Run"
    else
      (animator.set_speed "Back" walk_backwards_factor).transition_to "Back"
  else
    (animator.set_speed "Idle" 1).transition_to "Idle"

-- ===========================================================================
-- skeleton.rs: skeletal data and runtime bones
-- ===========================================================================

/-- SkeletalBoneDescription: the tuple
(parent name, length, rest angle, ragdoll inverse mass, min, max). -/
structure SkeletalBoneDescription where
  parent_name : String
  length : Rat
  angle : Rat
  ragdoll_inv_mass : Rat
  min_angle : Option Rat
  max_angle : Option Rat
deriving DecidableEq

/-- SkeletalBone: a name with its description. -/
structure SkeletalBone where
  name : String
  desc : SkeletalBoneDescription
deriving DecidableEq

inductive SkeletalConstraint where
  | stick (a b : String)
  | angular (parent joint child : String) (left right : Rat)
deriving DecidableEq

structure SkeletalData where
  bones : List SkeletalBone
  ragdoll_parents : List (String × String)
  constraints : List SkeletalConstraint
deriving DecidableEq

/-- The runtime Bone. The static data reference is flattened into the
name / length / ragdoll_inv_mass fields; the end field is spelled end_
(end is reserved). -/
structure Bone where
  index : Nat
  parent : Nat
  ragdoll_parent : Nat
  children : List Nat
  angle : Rat
  animation_angle : Rat
  offset_angle : Rat
  start : Vec2
  end_ : Vec2
  min_angle : Option Rat
  max_angle : Option Rat
  name : String
  length : Rat
  ragdoll_inv_mass : Rat
deriving DecidableEq

instance : Inhabited Bone :=
  ⟨{ index := 0, parent := 255, ragdoll_parent := 255, children := []
     angle := 0, animation_angle := 0, offset_angle := 0
     start := Vec2.zero, end_ := Vec2.zero
     min_angle := none, max_angle := none
     name := "", length := 0, ragdoll_inv_mass := 0 }⟩

def Bone.set_angle (b : Bone) (r : Rat) : Bone := { b with offset_angle := r }

/-- Bone::set: install the composed values after a regular step. -/
def Bone.set (b : Bone) (values : Rat × Vec2 × Vec2) : Bone :=
  { b with angle := values.1, animation_angle := values.1
           start := values.2.1, end_ := values.2.2 }

/-- Bone::set_ik: like set but keeps animation_angle. -/
def Bone.set_ik (b : Bone) (values : Rat × Vec2 × Vec2) : Bone :=
  { b with angle := values.1, start := values.2.1, end_ := values.2.2 }

/-- SkeletalData::to_internal_bones: resolve parent indices (255 when the
parent name resolves to the bone itself or nothing), apply the ragdoll
parent overrides, and collect the child index lists. -/
def SkeletalData.to_internal_bones (data : SkeletalData) : List Bone :=
  let prelim : List Bone := data.bones.enum.map (fun ib =>
    let index := ib.1
    let bone := ib.2
    let parent :=
      match data.bones.enum.find?
          (fun p => p.2.name == bone.desc.parent_name && p.2.name != bone.name) with
      | some p => p.1
      | none => 255
    let ragdoll_parent := data.ragdoll_parents.foldl
      (fun rp link =>
        if link.1 == bone.name then
          match data.bones.enum.find? (fun p => p.2.name == link.2) with
          | some p => p.1
          | none => rp
        else rp)
      parent
    { index := index, parent := parent, ragdoll_parent := ragdoll_parent
      children := []
      angle := 0, animation_angle := 0, offset_angle := 0
      start := Vec2.zero, end_ := Vec2.zero
      min_angle := bone.desc.min_angle, max_angle := bone.desc.max_angle
      name := bone.name, length := bone.desc.length
      ragdoll_inv_mass := bone.desc.ragdoll_inv_mass })
  prelim.map (fun b =>
    let cs := prelim.filter (fun o => o.parent == b.index && o.index != o.parent)
    { b with children := cs.map (fun o => o.index) })

def SkeletalData.to_animation_bones (data : SkeletalData) :
    List AnimationFrameBone :=
  data.bones.map (fun b => (b.name, b.desc.angle))

/-- SkeletalData::reset_animation_bones: zip over the frame bones,
refreshing each angle from the rest angle of the description. -/
def SkeletalData.reset_animation_bones (data : SkeletalData)
    (bones : List AnimationFrameBone) : List AnimationFrameBone :=
  (data.bones.zip bones).map (fun zb => (zb.2.1, zb.1.desc.angle))
    ++ bones.drop data.bones.length

/-- Skeleton::visit_bones: for each index in the list, visit the bone and
descend into its child list (before the bone for children_first, after
it otherwise), appending the visited index to the accumulator. The Rust
recursion descends along the child lists of a finite forest; the
embedding bounds the depth with a fuel argument — any fuel of at least
the bone count produces the complete traversal. -/
def visitBonesList (bones : List Bone) :
    Nat → List Nat → Bool → List Nat → List Nat
  | 0, _, _, acc => acc
  | fuel + 1, indices, children_first, acc =>
    indices.foldl
      (fun acc i =>
        let children := (bones.getD i default).children
        if children_first then
          (visitBonesList bones fuel children children_first acc) ++ [i]
        else
          visitBonesList bones fuel children children_first (acc ++ [i]))
      acc

-- ===========================================================================
-- skeleton.rs: Skeleton
-- ===========================================================================

inductive Space where
  | World
  | Local
  | Animation
deriving DecidableEq

structure Skeleton where
  data : SkeletalData
  bones : List Bone
  name_to_index : List (String × Nat)
  child_first_indices : List Nat
  child_last_indices : List Nat
  local_transform : Vec2
  world_position : Vec2
  bounds : Vec2 × Vec2
  bone_rest_angles : List AnimationFrameBone
  animator : Animator
  ragdoll : Option Ragdoll
deriving DecidableEq

def Skeleton.new (data : SkeletalData) : Skeleton :=
  let bones := data.to_internal_bones
  { data := data
    bones := bones
    name_to_index := bones.foldl (fun m b => aInsert m b.name b.index) []
    child_first_indices := visitBonesList bones bones.length [0] true []
    child_last_indices := visitBonesList bones bones.length [0] false []
    local_transform := ⟨1, 1⟩
    world_position := Vec2.zero
    bounds := (Vec2.zero, Vec2.zero)
    bone_rest_angles := data.to_animation_bones
    animator := Animator.build_default
    ragdoll := none }

def Skeleton.at_rest (s : Skeleton) : Bool :=
  match s.ragdoll with
  | some r => r.at_rest
  | none => false

def Skeleton.has_ragdoll (s : Skeleton) : Bool := s.ragdoll.isSome

def Skeleton.stop_ragdoll (s : Skeleton) : Skeleton := { s with ragdoll := none }

def Skeleton.set_local_transform (s : Skeleton) (transform : Vec2) : Skeleton :=
  if s.ragdoll.isNone then { s with local_transform := transform } else s

def Skeleton.set_world_offset (s : Skeleton) (p : Vec2) : Skeleton :=
  if s.ragdoll.isNone then { s with world_position := p } else s

def Skeleton.to_local (s : Skeleton) (w : Vec2) : Vec2 := w.sub s.world_position

def Skeleton.to_world (s : Skeleton) (p : Vec2) : Vec2 := p.add s.world_position

def Skeleton.set_animator (s : Skeleton) (animator : Animator) : Skeleton :=
  { s with animator := animator }

def Skeleton.bone_by_name (s : Skeleton) (name : String) : Option Bone :=
  match s.name_to_index.lookup name with
  | some index => some (s.bones.getD index default)
  | none => none

def Skeleton.bone_start (s : Skeleton) (space : Space) (name : String) : Vec2 :=
  match s.ragdoll with
  | some ragdoll =>
    let start := (ragdoll.constraint_points name).2
    match space with
    | .World => s.to_world start
    | .Local => start
    | .Animation => start.scale s.local_transform
  | none =>
    match s.bone_by_name name with
    | some bone =>
      match space with
      | .World => s.to_world (bone.start.scale s.local_transform)
      | .Local => bone.start.scale s.local_transform
      | .Animation => bone.start
    | none =>
      match space with
      | .World => s.to_world Vec2.zero
      | .Local => Vec2.zero
      | .Animation => Vec2.zero

def Skeleton.bone_end (s : Skeleton) (space : Space) (name : String) : Vec2 :=
  match s.ragdoll with
  | some ragdoll =>
    let endv := (ragdoll.constraint_points name).1
    match space with
    | .World => s.to_world endv
    | .Local => endv
    | .Animation => endv.scale s.local_transform
  | none =>
    match s.bone_by_name name with
    | some bone =>
      match space with
      | .World => s.to_world (bone.end_.scale s.local_transform)
      | .Local => bone.end_.scale s.local_transform
      | .Animation => bone.end_
    | none =>
      match space with
      | .World => s.to_world Vec2.zero
      | .Local => Vec2.zero
      | .Animation => Vec2.zero

def Skeleton.apply_bone_angle (s : Skeleton) (name : String) (angle : Rat) :
    Skeleton :=
  match s.name_to_index.lookup name with
  | some index =>
    let b := (s.bones.getD index default).set_angle angle
    { s with bones := s.bones.set index b }
  | none => s

/-- Skeleton::calculate_bone over a bone list (the method reads
self.bones; the step and IK paths thread the intermediate list). The
Angle::offset helper (cos and sin of the composed angle scaled by the
length, util module) is abstracted as angleOffsetF. -/
def Skeleton.calculate_bone (angleOffsetF : Rat → Rat → Vec2)
    (bones : List Bone) (index : Nat) : Rat × Vec2 × Vec2 :=
  let bone := bones.getD index default
  let parent_angle :=
    if bone.parent = 255 then 0 else (bones.getD bone.parent default).angle
  let bone_angle := parent_angle + bone.angle + bone.offset_angle
  let start :=
    if bone.parent = 255 then Vec2.zero else (bones.getD bone.parent default).end_
  let endv :=
    if 0 < bone.length then start.add (angleOffsetF bone_angle bone.length)
    else start
  (bone_angle, start, endv)

/-- The first loop of the non-ragdoll Skeleton::step: reset every bone
angle (in child-last order) to the frame-bone value of its index. -/
def Skeleton.angleLoop (rest : List AnimationFrameBone) :
    List Nat → List Bone → List Bone
  | [], bones => bones
  | i :: is, bones =>
    Skeleton.angleLoop rest is
      (bones.set i { bones.getD i default with angle := (rest.getD i ("", 0)).2 })

/-- The second loop of the non-ragdoll Skeleton::step: in child-last
order compute each bone's composed angle, start and end relative to its
parent, folding the previous start and end into the bounds (the source
reads the bounds from the bone before overwriting it). -/
def Skeleton.arrangeLoop (angleOffsetF : Rat → Rat → Vec2) :
    List Nat → List Bone × (Vec2 × Vec2) → List Bone × (Vec2 × Vec2)
  | [], acc => acc
  | i :: is, acc =>
    let bones := acc.1
    let bounds := acc.2
    let values := Skeleton.calculate_bone angleOffsetF bones i
    let bone := bones.getD i default
    let bounds1 : Vec2 × Vec2 :=
      (⟨min (min bounds.1.x bone.start.x) bone.end_.x,
        min (min bounds.1.y bone.start.y) bone.end_.y⟩,
       ⟨max (max bounds.2.x bone.start.x) bone.end_.x,
        max (max bounds.2.y bone.start.y) bone.end_.y⟩)
    Skeleton.arrangeLoop angleOffsetF is (bones.set i (bone.set values), bounds1)

/-- Skeleton::step: the ragdoll path delegates to Ragdoll::step; the
regular path resets the bounds, refreshes the frame bones from the rest
angles, advances the animator into them, and recomputes every bone in
child-last order. -/
def Skeleton.step (fisr : Rat → Rat) (isLeftF : Vec2 → Vec2 → Vec2 → Bool)
    (angleOffsetF : Rat → Rat → Vec2) (s : Skeleton) (dt : Rat)
    (gravity : Vec2) (collider : Particle → Particle) : Skeleton :=
  match s.ragdoll with
  | some ragdoll =>
    { s with ragdoll := some (ragdoll.step fisr isLeftF dt gravity collider) }
  | none =>
    let bounds0 : Vec2 × Vec2 := (⟨10000, 10000⟩, ⟨-10000, -10000⟩)
    let rest0 := s.data.reset_animation_bones s.bone_rest_angles
    let au := s.animator.update dt rest0
    let bones1 := Skeleton.angleLoop au.2 s.child_last_indices s.bones
    let res := Skeleton.arrangeLoop angleOffsetF s.child_last_indices
      (bones1, bounds0)
    { s with bones := res.1, bounds := res.2
             bone_rest_angles := au.2, animator := au.1 }

-- ===========================================================================
-- skeleton.rs: analytic two-bone IK
-- ===========================================================================

/-- f32 EPSILON, exactly 2 to the power -23. -/
def EPSILON : Rat := 1 / 2 ^ 23

/-- solve_bone_ik. The inverse cosine, sine and atan2 have no rational
counterpart and are abstracted as acosF, sinF and atan2F; every branch
and comparison is the source's. Returns none exactly when the source
returns None (no valid solution). -/
def solve_bone_ik (acosF sinF : Rat → Rat) (atan2F : Rat → Rat → Rat)
    (solve_positive : Bool) (l1 l2 x y : Rat) : Option (Rat × Rat) :=
  let target_dist := x * x + y * y
  let cos_angle_2_denom := 2 * l1 * l2
  let csa : Rat × Rat × Rat × Bool :=
    if EPSILON < cos_angle_2_denom then
      let cos_angle_2 := (target_dist - l1 * l1 - l2 * l2) / cos_angle_2_denom
      let valid := !(decide (cos_angle_2 < -1) || decide (1 < cos_angle_2))
      let cos_angle_2 := max (min cos_angle_2 1) (-1)
      let a2 := acosF cos_angle_2
      let a2 := if solve_positive then a2 else -a2
      (cos_angle_2, sinF a2, a2, valid)
    else
      let total_len := (l1 + l2) * (l1 + l2)
      let valid := !(decide (target_dist < total_len - EPSILON)
        || decide (total_len + EPSILON < target_dist))
      (1, 0, 0, valid)
  let tri_adjacent := l1 + l2 * csa.1
  let tri_opposite := l2 * csa.2.1
  let tan_y := y * tri_adjacent - x * tri_opposite
  let tan_x := x * tri_adjacent + y * tri_opposite
  if csa.2.2.2 then some (atan2F tan_y tan_x, csa.2.2.1) else none

/-- Skeleton::apply_bone_ik. Returns none where the source aborts: the
unwrap on an unknown bone name, or indexing self.bones with the 255
parent sentinel. During ragdoll, and when the solver finds no solution,
the skeleton is returned unchanged. -/
def Skeleton.apply_bone_ik (angleOffsetF : Rat → Rat → Vec2)
    (acosF sinF : Rat → Rat) (atan2F : Rat → Rat → Rat) (s : Skeleton)
    (name : String) (target : Vec2) (positive transformed : Bool) :
    Option Skeleton :=
  if s.ragdoll.isSome then some s
  else
    let target1 := if transformed then target.scale s.local_transform else target
    match s.bone_by_name name with
    | none => none
    | some bone =>
      if bone.parent < s.bones.length then
        let l1 := (s.bones.getD bone.parent default).length
        let l2 := bone.length
        let parent := bone.parent
        let index := bone.index
        let origin := (s.bones.getD bone.parent default).start
        let parent_rest_angle := (s.bone_rest_angles.getD bone.parent ("", 0)).2
          - (s.bones.getD bone.parent default).animation_angle
        match solve_bone_ik acosF sinF atan2F (!positive) l1 l2
            (target1.x - origin.x) (target1.y - origin.y) with
        | some a =>
          let bones1 := s.bones.set parent
            { s.bones.getD parent default with angle := a.1 + parent_rest_angle }
          let bones2 := bones1.set index
            { bones1.getD index default with angle := a.2 }
          let values := Skeleton.calculate_bone angleOffsetF bones2 parent
          let bones3 := bones2.set parent ((bones2.getD parent default).set_ik values)
          let values2 := Skeleton.calculate_bone angleOffsetF bones3 index
          let bones4 := bones3.set index ((bones3.getD index default).set_ik values2)
          some { s with bones := bones4 }
        | none => some s
      else none

-- ===========================================================================
-- library/stick_figure.rs: DEFAULT_FIGURE_SKELETON
-- ===========================================================================

/-- The DEFAULT_FIGURE_SKELETON description. All rest angles in the
source are integer or decimal multiples of pi/16 (D12); since pi is not
rational, angles are expressed here in units of pi/16, so -D90 is -8,
D90 is 8, PI is 16 and D90 * 1.9 is 76/5. Every theorem about the
skeleton quantifies over the angle-to-offset function, so the unit
choice of the angle scale carries no content. -/
def defaultFigureSkeleton : SkeletalData :=
  { bones :=
      [ ⟨"Root",   ⟨"Root",   0, -8, 98/100, none, none⟩⟩
      , ⟨"Back",   ⟨"Root",  18,  0, 99/100, none, none⟩⟩
      , ⟨"Head",   ⟨"Back",  10,  0, 99/100, none, none⟩⟩
      , ⟨"R.Arm",  ⟨"Back",   9,  8, 1, none, none⟩⟩
      , ⟨"R.Hand", ⟨"R.Arm", 13,  0, 1, some 0, some (76/5)⟩⟩
      , ⟨"L.Arm",  ⟨"Back",   9, -8, 1, none, none⟩⟩
      , ⟨"L.Hand", ⟨"L.Arm", 13,  0, 1, some 0, some (76/5)⟩⟩
      , ⟨"Hip",    ⟨"Root",   0, 16, 1, none, none⟩⟩
      , ⟨"R.Leg",  ⟨"Hip",   13,  0, 99/100, none, none⟩⟩
      , ⟨"R.Foot", ⟨"R.Leg", 14,  0, 1, some (-76/5), some 0⟩⟩
      , ⟨"L.Leg",  ⟨"Hip",   13,  0, 99/100, none, none⟩⟩
      , ⟨"L.Foot", ⟨"L.Leg", 14,  0, 1, some (-76/5), some 0⟩⟩ ]
    ragdoll_parents := [("L.Leg", "Root"), ("R.Leg", "Root")]
    constraints :=
      [ SkeletalConstraint.stick "Back" "L.Leg"
      , SkeletalConstraint.stick "Back" "R.Leg"
      , SkeletalConstraint.angular "Root" "Back" "Head" 12 12 ] }

/-- A minimal ragdoll used as a concrete fixture: one joint, no
constraints, already at rest only when steps_until_rest is 0. -/
def exampleRagdoll : Ragdoll :=
  Ragdoll.new [Particle.new ⟨3, 4⟩] []

/-- A triangle of three visual stick constraints over three joints: the
fixture exercising the retain predicate of split_off_joint. Constraint 0
(named A, the split target) links joints 0 and 1, constraint 1 links
joints 1 and 2, constraint 2 links joints 2 and 0. -/
def triangleRagdoll : Ragdoll :=
  Ragdoll.new
    [Particle.new ⟨0, 0⟩, Particle.new ⟨1, 0⟩, Particle.new ⟨0, 1⟩]
    [ Constraint.stick "A" 0 1 1 true
    , Constraint.stick "B" 1 2 1 true
    , Constraint.stick "C" 2 0 1 true ]

-- ===========================================================================
-- Helper lemmas
-- ===========================================================================

theorem Vec2.mulS_zero (a : Vec2) : a.mulS 0 = Vec2.zero := by
  simp [Vec2.mulS, Vec2.zero]

theorem Vec2.zero_mulS (s : Rat) : Vec2.zero.mulS s = Vec2.zero := by
  simp [Vec2.mulS, Vec2.zero]

theorem Vec2.add_zero (a : Vec2) : a.add Vec2.zero = a := by
  simp [Vec2.add, Vec2.zero]

theorem Vec2.sub_zero (a : Vec2) : a.sub Vec2.zero = a := by
  simp [Vec2.sub, Vec2.zero]

theorem getD_set_self {α : Type} [Inhabited α] (l : List α) (i : Nat) (v : α)
    (h : i < l.length) : (l.set i v).getD i default = v := by
  induction l generalizing i with
  | nil => simp at h
  | cons a t ih =>
    cases i with
    | zero => rfl
    | succ n => exact ih n (by simpa using h)

theorem getD_set_ne {α : Type} [Inhabited α] (l : List α) (i j : Nat) (v : α)
    (h : i ≠ j) : (l.set i v).getD j default = l.getD j default := by
  induction l generalizing i j with
  | nil => rfl
  | cons a t ih =>
    cases i with
    | zero =>
      cases j with
      | zero => exact absurd rfl h
      | succ m => rfl
    | succ n =>
      cases j with
      | zero => rfl
      | succ m => exact ih n m (fun hh => h (by rw [hh]))

theorem getD_map_of_lt {α β : Type} [Inhabited α] [Inhabited β] (f : α → β)
    (l : List α) (k : Nat) (h : k < l.length) :
    (l.map f).getD k default = f (l.getD k default) := by
  induction l generalizing k with
  | nil => simp at h
  | cons a t ih =>
    cases k with
    | zero => rfl
    | succ n => exact ih n (by simpa using h)

-- ===========================================================================
-- C10: ragdoll rest state is absorbing
-- ===========================================================================

/-- C10: once steps_until_rest is 0 (at_rest), Ragdoll::step returns
immediately, leaving joints (positions and prev positions) and bounds
unchanged; step never increases steps_until_rest, apply_force never
touches it, so at_rest stays true for the rest of the ragdoll's lifetime
while apply_force may still displace joints. -/
theorem ragdoll_rest_absorbing (fisr : Rat → Rat)
    (isLeftF : Vec2 → Vec2 → Vec2 → Bool) (sqrtF : Rat → Rat) (r : Ragdoll)
    (dt : Rat) (gravity : Vec2) (collider : Particle → Particle)
    (origin force : Vec2) (width : Rat) :
    (r.at_rest = true → Ragdoll.step fisr isLeftF r dt gravity collider = r)
    ∧ (Ragdoll.step fisr isLeftF r dt gravity collider).steps_until_rest
        ≤ r.steps_until_rest
    ∧ (Ragdoll.apply_force sqrtF r origin force width).steps_until_rest
        = r.steps_until_rest
    ∧ (r.at_rest = true →
        (Ragdoll.step fisr isLeftF r dt gravity collider).at_rest = true
        ∧ (Ragdoll.apply_force sqrtF r origin force width).at_rest = true) := by
  have hforce : (Ragdoll.apply_force sqrtF r origin force width).steps_until_rest
      = r.steps_until_rest := by
    unfold Ragdoll.apply_force
    by_cases h : 0 < sqrtF force.lenSq
    · simp [h]
    · simp [h]
  have hstep0 : r.at_rest = true →
      Ragdoll.step fisr isLeftF r dt gravity collider = r := by
    intro h
    have h0 : r.steps_until_rest = 0 := by
      simpa [Ragdoll.at_rest] using h
    unfold Ragdoll.step
    simp [h0]
  have hle : (Ragdoll.step fisr isLeftF r dt gravity collider).steps_until_rest
      ≤ r.steps_until_rest := by
    unfold Ragdoll.step
    by_cases h0 : r.steps_until_rest = 0
    · simp [h0]
    · simp only [if_neg h0]
      by_cases hany : (ParticleSystem.satisfy_constraints fisr isLeftF collider 1
          (ParticleSystem.verlet dt (ParticleSystem.accumulate_forces gravity r.joints))
          r.constraints r.bounds).2.2
      · simp [hany]
      · simp [hany, Nat.sub_le]
  refine ⟨hstep0, hle, hforce, fun h => ⟨?_, ?_⟩⟩
  · rw [hstep0 h]; exact h
  · have h0 : r.steps_until_rest = 0 := by
      simpa [Ragdoll.at_rest] using h
    simp [Ragdoll.at_rest, hforce, h0]

/-- Witness for C10 at a concrete resting ragdoll. -/
theorem ragdoll_rest_absorbing_witness :
    Ragdoll.step (fun _ => 0) (fun _ _ _ => false)
        { exampleRagdoll with steps_until_rest := 0 } (1/60) ⟨0, 450⟩ id
      = { exampleRagdoll with steps_until_rest := 0 }
    ∧ (Ragdoll.apply_force (fun _ => 0)
        { exampleRagdoll with steps_until_rest := 0 } ⟨0, -10⟩ ⟨5, 5⟩ 2).at_rest
      = true := by
  have h := ragdoll_rest_absorbing (fun _ => 0) (fun _ _ _ => false) (fun _ => 0)
    { exampleRagdoll with steps_until_rest := 0 } (1/60) ⟨0, 450⟩ id
    ⟨0, -10⟩ ⟨5, 5⟩ 2
  exact ⟨h.1 (by decide), (h.2.2.2 (by decide)).2⟩

-- ===========================================================================
-- C8: transition_to is a no-op when already in the requested state
-- ===========================================================================

/-- C8: calling Animator::transition_to with the state that is already
current is a complete no-op: the animator record (current, previous,
blend duration, blend timer, every state's animation instances) is
returned unchanged. -/
theorem transition_to_self_noop (a : Animator) (x : String)
    (h : a.current = some x) : a.transition_to x = a := by
  unfold Animator.transition_to
  rw [h]
  simp

/-- Witness for C8 at a concrete animator. -/
theorem transition_to_self_noop_witness :
    Animator.transition_to { Animator.build_default with current := some "Idle" }
        "Idle"
      = { Animator.build_default with current := some "Idle" } :=
  transition_to_self_noop { Animator.build_default with current := some "Idle" }
    "Idle" rfl

-- ===========================================================================
-- C6: the activity counter stays in [0, 10]
-- ===========================================================================

/-- C6: the particle system's activity counter starts at 10, activate
resets it to 10, a step whose whole relaxation saw no particle move past
its rest threshold decrements it by exactly 1 (Nat subtraction saturates
at 0), a step never increases it (so it stays within [0, 10] and at most
10 rest passes bring it to 0), and a step at activity 0 returns the
system completely unchanged. -/
theorem activity_counter_bounds (fisr : Rat → Rat)
    (isLeftF : Vec2 → Vec2 → Vec2 → Bool) (n it : Nat)
    (s s0 : ParticleSystem) (dt : Rat) (gravity : Vec2)
    (collider : Particle → Particle) :
    (ParticleSystem.new n it).activity = 10
    ∧ (ParticleSystem.activate s).activity = 10
    ∧ (s0.activity = 0 →
        ParticleSystem.step fisr isLeftF s0 dt gravity collider = s0)
    ∧ (ParticleSystem.step fisr isLeftF s dt gravity collider).activity
        ≤ s.activity
    ∧ (s.activity ≤ 10 →
        (ParticleSystem.step fisr isLeftF s dt gravity collider).activity ≤ 10)
    ∧ (0 < s.activity →
        (ParticleSystem.step fisr isLeftF s dt gravity collider).activity
          = if (ParticleSystem.satisfy_constraints fisr isLeftF collider
                s.iterations
                (ParticleSystem.verlet dt
                  (ParticleSystem.accumulate_forces gravity s.particles))
                s.constraints s.bounds).2.2
            then s.activity else s.activity - 1) := by
  have hle : (ParticleSystem.step fisr isLeftF s dt gravity collider).activity
      ≤ s.activity := by
    unfold ParticleSystem.step
    by_cases h : 0 < s.activity
    · simp only [if_pos h]
      by_cases hany : (ParticleSystem.satisfy_constraints fisr isLeftF collider
          s.iterations
          (ParticleSystem.verlet dt
            (ParticleSystem.accumulate_forces gravity s.particles))
          s.constraints s.bounds).2.2
      · simp [hany]
      · simp [hany, Nat.sub_le]
    · simp [h]
  refine ⟨rfl, rfl, ?_, hle, fun h10 => le_trans hle h10, ?_⟩
  · intro h0
    unfold ParticleSystem.step
    simp [h0]
  · intro hpos
    unfold ParticleSystem.step
    simp only [if_pos hpos]

/-- Witness for C6 at concrete systems (an active one and an inactive
one). -/
theorem activity_counter_bounds_witness :
    (ParticleSystem.new 2 1).activity = 10
    ∧ (ParticleSystem.step (fun _ => 0) (fun _ _ _ => false)
        { ParticleSystem.new 2 1 with activity := 0 } (1/60) ⟨0, 450⟩ id
        = { ParticleSystem.new 2 1 with activity := 0 })
    ∧ ((ParticleSystem.step (fun _ => 0) (fun _ _ _ => false)
        (ParticleSystem.new 2 1) (1/60) ⟨0, 450⟩ id).activity ≤ 10) := by
  have h := activity_counter_bounds (fun _ => 0) (fun _ _ _ => false) 2 1
    (ParticleSystem.new 2 1) { ParticleSystem.new 2 1 with activity := 0 }
    (1/60) ⟨0, 450⟩ id
  exact ⟨h.1, h.2.2.1 (by decide), h.2.2.2.2.1 (by decide)⟩

-- ===========================================================================
-- C5: step preserves the particle count; pinned particles never move
-- ===========================================================================

theorem solve_length (fisr : Rat → Rat) (isLeftF : Vec2 → Vec2 → Vec2 → Bool)
    (c : Constraint) (ps : List Particle) :
    (Constraint.solve fisr isLeftF c ps).length = ps.length := by
  cases c with
  | stick nm a b rest vis =>
    simp only [Constraint.solve]
    split
    · simp [List.length_set]
    · rfl
  | angular nm p e j rest il vis =>
    simp only [Constraint.solve]
    split
    · split
      · simp [List.length_set]
      · rfl
    · rfl

theorem foldl_solve_length (fisr : Rat → Rat)
    (isLeftF : Vec2 → Vec2 → Vec2 → Bool) (cs : List Constraint)
    (ps : List Particle) :
    (cs.foldl (fun ps c => Constraint.solve fisr isLeftF c ps) ps).length
      = ps.length := by
  induction cs generalizing ps with
  | nil => rfl
  | cons c t ih => rw [List.foldl_cons, ih, solve_length]

theorem colliderPass_length (collider : Particle → Particle)
    (ps : List Particle) (bounds : Vec2 × Vec2) (any : Bool) :
    (ParticleSystem.colliderPass collider ps bounds any).1.length
      = ps.length := by
  induction ps generalizing bounds any with
  | nil => rfl
  | cons p t ih => simp [ParticleSystem.colliderPass, ih]

theorem satisfyLoop_length (fisr : Rat → Rat)
    (isLeftF : Vec2 → Vec2 → Vec2 → Bool) (collider : Particle → Particle)
    (cs : List Constraint) (n : Nat) (ps : List Particle)
    (bounds : Vec2 × Vec2) (any : Bool) :
    (ParticleSystem.satisfyLoop fisr isLeftF collider cs n ps bounds any).1.length
      = ps.length := by
  induction n generalizing ps bounds any with
  | zero => rfl
  | succ m ih =>
    simp only [ParticleSystem.satisfyLoop]
    rw [ih, foldl_solve_length, colliderPass_length]

theorem verlet_pinned (dt : Rat) (ps : List Particle) (k : Nat)
    (hk : k < ps.length) (hm : (ps.getD k default).inv_mass = 0) :
    ((ParticleSystem.verlet dt ps).getD k default).position
      = (ps.getD k default).position := by
  unfold ParticleSystem.verlet
  rw [getD_map_of_lt _ _ _ hk]
  simp only [List.getD, List.get?_eq_getElem?] at hm
  simp [hm, Vec2.mulS_zero, Vec2.add_zero]

theorem solve_pinned (fisr : Rat → Rat) (isLeftF : Vec2 → Vec2 → Vec2 → Bool)
    (c : Constraint) (ps : List Particle) (k : Nat) (hk : k < ps.length)
    (hm : (ps.getD k default).inv_mass = 0) :
    ((Constraint.solve fisr isLeftF c ps).getD k default).position
      = (ps.getD k default).position := by
  have hm' := hm
  simp only [List.getD, List.get?_eq_getElem?] at hm'
  cases c with
  | stick nm a b rest vis =>
    simp only [Constraint.solve]
    split
    · by_cases hb : k = b
      · subst hb
        rw [getD_set_self _ _ _ (by simpa using hk)]
        simp [hm', Vec2.mulS_zero, Vec2.zero_mulS, Vec2.sub_zero]
      · rw [getD_set_ne _ _ _ _ (fun hh => hb hh.symm)]
        by_cases ha : k = a
        · subst ha
          rw [getD_set_self _ _ _ hk]
          simp [hm', Vec2.mulS_zero, Vec2.zero_mulS, Vec2.add_zero]
        · rw [getD_set_ne _ _ _ _ (fun hh => ha hh.symm)]
    · rfl
  | angular nm p e j rest il vis =>
    simp only [Constraint.solve]
    split
    · split
      · by_cases he : k = e
        · subst he
          rw [getD_set_self _ _ _ (by simpa using hk)]
          simp [hm', Vec2.mulS_zero, Vec2.zero_mulS, Vec2.sub_zero]
        · rw [getD_set_ne _ _ _ _ (fun hh => he hh.symm)]
          by_cases hp : k = p
          · subst hp
            rw [getD_set_self _ _ _ hk]
            simp [hm', Vec2.mulS_zero, Vec2.zero_mulS, Vec2.add_zero]
          · rw [getD_set_ne _ _ _ _ (fun hh => hp hh.symm)]
      · rfl
    · rfl

/-- C5: ParticleSystem::step never changes the number of particles, and a
particle with inverse mass 0 keeps its exact position under the Verlet
integration and under the solve of every stick and angular constraint
(only the collider callback, which step applies separately, can move
it). -/
theorem particle_step_count_pinned (fisr : Rat → Rat)
    (isLeftF : Vec2 → Vec2 → Vec2 → Bool) (sys : ParticleSystem) (dt : Rat)
    (gravity : Vec2) (collider : Particle → Particle) :
    (ParticleSystem.step fisr isLeftF sys dt gravity collider).particles.length
      = sys.particles.length
    ∧ ∀ (ps : List Particle) (k : Nat), k < ps.length →
        (ps.getD k default).inv_mass = 0 →
        ((ParticleSystem.verlet dt ps).getD k default).position
          = (ps.getD k default).position
        ∧ ∀ c : Constraint,
            ((Constraint.solve fisr isLeftF c ps).getD k default).position
              = (ps.getD k default).position := by
  constructor
  · unfold ParticleSystem.step
    by_cases h : 0 < sys.activity
    · simp only [if_pos h]
      unfold ParticleSystem.satisfy_constraints
      rw [satisfyLoop_length]
      simp [ParticleSystem.verlet, ParticleSystem.accumulate_forces]
    · simp [h]
  · intro ps k hk hm
    exact ⟨verlet_pinned dt ps k hk hm,
      fun c => solve_pinned fisr isLeftF c ps k hk hm⟩

/-- Witness for C5: a two-particle system with a pinned first particle
and a stick constraint between the two. -/
theorem particle_step_count_pinned_witness :
    (ParticleSystem.step (fun _ => 1) (fun _ _ _ => false)
        { ParticleSystem.new 2 2 with
            constraints := [Constraint.stick "s" 0 1 5 false] }
        (1/60) ⟨0, 450⟩ id).particles.length = 2
    ∧ ((ParticleSystem.verlet (1/60)
        [Particle.with_inv_mass ⟨3, 4⟩ 0, Particle.new ⟨9, 9⟩]).getD 0
          default).position
      = ((⟨3, 4⟩ : Vec2))
    ∧ ((Constraint.solve (fun _ => 1) (fun _ _ _ => false)
        (Constraint.stick "s" 0 1 5 false)
        [Particle.with_inv_mass ⟨3, 4⟩ 0, Particle.new ⟨9, 9⟩]).getD 0
          default).position
      = ((⟨3, 4⟩ : Vec2)) := by
  have h := particle_step_count_pinned (fun _ => 1) (fun _ _ _ => false)
    { ParticleSystem.new 2 2 with
        constraints := [Constraint.stick "s" 0 1 5 false] }
    (1/60) ⟨0, 450⟩ id
  have h2 := h.2 [Particle.with_inv_mass ⟨3, 4⟩ 0, Particle.new ⟨9, 9⟩] 0
    (by decide) (by decide)
  refine ⟨h.1, ?_, ?_⟩
  · rw [h2.1]; rfl
  · rw [h2.2 (Constraint.stick "s" 0 1 5 false)]; rfl

-- ===========================================================================
-- C7: the retain predicate of split_off_joint
-- ===========================================================================

/-- C7 (the code evaluated at the failing input): in the triangle
ragdoll, splitting the visual constraint named A (first particle 0,
second particle 1, constraint index 0) computes the left set by flooding
from joint 0 and the right set from joint 1; both flood fills reach all
three joints through the other visual constraints. The visual constraint
B (first particle 1, second particle 2) then has its second particle in
the left set and its first in the right set, so the retain predicate
removes it although it is visible: the unparenthesised Rust condition
lets the second disjunct of is_crossing skip the visibility test,
contradicting the rule (also stated by the comment above the retain
call) that only non-visible set-crossing constraints are removed. -/
theorem split_retain_removes_visible_constraint :
    triangleRagdoll.constraint_name_map.lookup "A" = some 0
    ∧ (Constraint.stick "B" 1 2 1 true).visual = true
    ∧ (Constraint.stick "B" 1 2 1 true) ∈ triangleRagdoll.constraints
    ∧ Ragdoll.isCrossing (triangleRagdoll.findPointsBehind 3 0 0 [])
        (triangleRagdoll.findPointsBehind 3 0 1 [])
        (Constraint.stick "B" 1 2 1 true) = true
    ∧ (Constraint.stick "B" 1 2 1 true) ∉
        Ragdoll.splitRetain (triangleRagdoll.findPointsBehind 3 0 0 [])
          (triangleRagdoll.findPointsBehind 3 0 1 [])
          triangleRagdoll.constraints := by
  decide

-- ===========================================================================
-- C9: the Run speed is stored under a mistyped state key
-- ===========================================================================

/-- C9 (the code evaluated at the failing input): with a grounded,
forward-moving figure (vx = 2, facing x = 1, above the 0.5 threshold)
the draw fragment transitions the animator to the "Run" state but stores
the speed factor |vx| / 3.5 = 4/7 under the mistyped key "RuN"; the
speed Animator::update reads for the "Run" state hence stays the default
1 instead of the 4/7 the spec states. -/
theorem run_speed_stored_under_mistyped_key :
    (StickFigure.updateAnimationState (1/2)
        { Animator.build_default with
            states := [("Run", ⟨[]⟩), ("Idle", ⟨[]⟩), ("Jump", ⟨[]⟩),
              ("Back", ⟨[]⟩)] }
        true 2 1).current = some "Run"
    ∧ (StickFigure.updateAnimationState (1/2)
        { Animator.build_default with
            states := [("Run", ⟨[]⟩), ("Idle", ⟨[]⟩), ("Jump", ⟨[]⟩),
              ("Back", ⟨[]⟩)] }
        true 2 1).speeds.lookup "RuN" = some (4/7)
    ∧ (StickFigure.updateAnimationState (1/2)
        { Animator.build_default with
            states := [("Run", ⟨[]⟩), ("Idle", ⟨[]⟩), ("Jump", ⟨[]⟩),
              ("Back", ⟨[]⟩)] }
        true 2 1).speeds.lookup "Run" = none
    ∧ (StickFigure.updateAnimationState (1/2)
        { Animator.build_default with
            states := [("Run", ⟨[]⟩), ("Idle", ⟨[]⟩), ("Jump", ⟨[]⟩),
              ("Back", ⟨[]⟩)] }
        true 2 1).speedFor "Run" = 1 := by
  have hv : (1 : Rat) / 2 < |(2 : Rat)| := by norm_num
  have hs : f32_equals (qsignum 2) 1 = true := by norm_num [f32_equals, qsignum]
  have hne : ("Run" : String) ≠ "RuN" := by decide
  have hv2 : ((2 : Rat))⁻¹ < 2 := by norm_num
  refine ⟨?_, ?_, ?_, ?_⟩
  all_goals
    try simp [StickFigure.updateAnimationState, hv, hs, hne, hv2,
      Animator.set_speed, Animator.transition_to, Animator.speedFor,
      Animator.build_default, AnimatorState.reset, List.lookup]
  all_goals try norm_num

-- ===========================================================================
-- C2: out-of-reach IK targets yield no solution
-- ===========================================================================

/-- C2 counterexample: with both bone lengths 1 and the target (3, 0) -
distance 3, beyond the total reach 2, with 2 l1 l2 = 2 above epsilon -
solve_bone_ik returns none, producing no angle pair at all (whatever
functions stand in for acos, sin and atan2), instead of the claimed
clamped straight-line pair. -/
theorem solve_bone_ik_beyond_reach_counterexample :
    solve_bone_ik (fun _ => 0) (fun _ => 0) (fun _ _ => 0) true 1 1 3 0
      = none := by
  have h1 : EPSILON < 2 * (1 : Rat) * 1 := by norm_num [EPSILON]
  have h2 : (1 : Rat)
      < (3 * 3 + 0 * 0 - (1 : Rat) * 1 - 1 * 1) / (2 * 1 * 1) := by norm_num
  simp only [solve_bone_ik, if_pos h1]
  simp [h2, not_lt_of_gt h2]
  exact fun _ => by norm_num

/-- C2 amended: when 2 l1 l2 exceeds the f32 epsilon and the target lies
strictly beyond the reach (x² + y² above (l1+l2)²), the solver clamps
the cosine but flags no valid solution and returns none - for every
choice of the trigonometric stand-ins - and apply_bone_ik consequently
leaves the skeleton unchanged: the bone keeps its animated pose. -/
theorem solve_bone_ik_beyond_reach (acosF sinF : Rat → Rat)
    (atan2F : Rat → Rat → Rat) (solve_positive : Bool) (l1 l2 x y : Rat)
    (hdenom : EPSILON < 2 * l1 * l2)
    (hfar : (l1 + l2) * (l1 + l2) < x * x + y * y) :
    solve_bone_ik acosF sinF atan2F solve_positive l1 l2 x y = none
    ∧ ∀ (angleOffsetF : Rat → Rat → Vec2) (s : Skeleton) (name : String)
        (target : Vec2) (positive transformed : Bool) (bone : Bone),
        s.ragdoll = none →
        s.bone_by_name name = some bone →
        bone.parent < s.bones.length →
        solve_bone_ik acosF sinF atan2F (!positive)
          ((s.bones.getD bone.parent default).length) bone.length
          ((if transformed then target.scale s.local_transform else target).x
            - (s.bones.getD bone.parent default).start.x)
          ((if transformed then target.scale s.local_transform else target).y
            - (s.bones.getD bone.parent default).start.y) = none →
        Skeleton.apply_bone_ik angleOffsetF acosF sinF atan2F s name target
          positive transformed = some s := by
  have hd0 : (0 : Rat) < 2 * l1 * l2 := by
    have he : (0 : Rat) < EPSILON := by norm_num [EPSILON]
    exact lt_trans he hdenom
  have hc : 1 < (x * x + y * y - l1 * l1 - l2 * l2) / (2 * l1 * l2) := by
    rw [lt_div_iff₀ hd0]
    nlinarith [hfar]
  constructor
  · simp only [solve_bone_ik, if_pos hdenom]
    simp [hc, not_lt_of_gt hc]
  · intro angleOffsetF s name target positive transformed bone hrag hname hlt
      hsolve
    have hrs : s.ragdoll.isSome = false := by rw [hrag]; rfl
    unfold Skeleton.apply_bone_ik
    rw [hrs]
    simp only [Bool.false_eq_true, if_false]
    rw [hname]
    simp only [if_pos hlt]
    rw [hsolve]

/-- Witness for C2 at concrete lengths 1 and 2 and the target (0, 4). -/
theorem solve_bone_ik_beyond_reach_witness :
    solve_bone_ik (fun _ => 0) (fun _ => 0) (fun _ _ => 0) false 1 2 0 4
      = none :=
  (solve_bone_ik_beyond_reach (fun _ => 0) (fun _ => 0) (fun _ _ => 0) false
    1 2 0 4 (by norm_num [EPSILON]) (by norm_num)).1

-- ===========================================================================
-- C3: unknown bone names
-- ===========================================================================

/-- C3 counterexample: on the freshly built default skeleton (no
ragdoll), the setter apply_bone_ik aborts for the unknown bone name
"Bogus" - the source unwraps the failed name lookup, rendered none in
the embedding - contradicting the claim that every setter silently
no-ops and no operation aborts. -/
theorem apply_bone_ik_unknown_name_aborts :
    Skeleton.apply_bone_ik (fun _ _ => Vec2.zero) (fun _ => 0) (fun _ => 0)
      (fun _ _ => 0) (Skeleton.new defaultFigureSkeleton) "Bogus" ⟨0, 0⟩
      true false = none := by
  decide

/-- C3 amended: for a bone name missing from the name-to-index map,
apply_bone_angle is a silent no-op, the getters bone_by_name, bone_start
and bone_end return none or the zero default, but the setter
apply_bone_ik (without an active ragdoll) aborts on the unwrapped
lookup, rendered none in the embedding. -/
theorem unknown_bone_name_behaviour (angleOffsetF : Rat → Rat → Vec2)
    (acosF sinF : Rat → Rat) (atan2F : Rat → Rat → Rat) (s : Skeleton)
    (name : String) (angle : Rat) (target : Vec2)
    (positive transformed : Bool)
    (hname : s.name_to_index.lookup name = none) :
    s.apply_bone_angle name angle = s
    ∧ s.bone_by_name name = none
    ∧ (s.ragdoll = none →
        s.bone_start Space.Animation name = Vec2.zero
        ∧ s.bone_end Space.Animation name = Vec2.zero
        ∧ Skeleton.apply_bone_ik angleOffsetF acosF sinF atan2F s name target
            positive transformed = none) := by
  have hbn : s.bone_by_name name = none := by
    unfold Skeleton.bone_by_name
    rw [hname]
  refine ⟨?_, hbn, fun hrag => ⟨?_, ?_, ?_⟩⟩
  · unfold Skeleton.apply_bone_angle
    rw [hname]
  · unfold Skeleton.bone_start
    rw [hrag, hbn]
  · unfold Skeleton.bone_end
    rw [hrag, hbn]
  · have hrs : s.ragdoll.isSome = false := by rw [hrag]; rfl
    unfold Skeleton.apply_bone_ik
    rw [hrs]
    simp only [Bool.false_eq_true, if_false]
    rw [hbn]

/-- Witness for C3 at the default skeleton and the name "Bogus". -/
theorem unknown_bone_name_behaviour_witness :
    (Skeleton.new defaultFigureSkeleton).apply_bone_angle "Bogus" 1
      = Skeleton.new defaultFigureSkeleton
    ∧ (Skeleton.new defaultFigureSkeleton).bone_by_name "Bogus" = none
    ∧ (Skeleton.new defaultFigureSkeleton).bone_start Space.Animation "Bogus"
      = Vec2.zero := by
  have h := unknown_bone_name_behaviour (fun _ _ => Vec2.zero) (fun _ => 0)
    (fun _ => 0) (fun _ _ => 0) (Skeleton.new defaultFigureSkeleton) "Bogus"
    1 ⟨0, 0⟩ true false (by decide)
  exact ⟨h.1, h.2.1, (h.2.2 (by decide)).1⟩

-- ===========================================================================
-- C4: an active ragdoll freezes the setters
-- ===========================================================================

/-- C4: while a ragdoll is active set_local_transform and
set_world_offset return the skeleton record completely unchanged (the
local_transform and world_position fields and every other field), and
apply_bone_ik returns it unchanged as well - no bone angle, start or end
changes and nothing aborts. -/
theorem ragdoll_freezes_setters (angleOffsetF : Rat → Rat → Vec2)
    (acosF sinF : Rat → Rat) (atan2F : Rat → Rat → Rat) (s : Skeleton)
    (v p target : Vec2) (name : String) (positive transformed : Bool)
    (h : s.has_ragdoll = true) :
    s.set_local_transform v = s
    ∧ s.set_world_offset p = s
    ∧ Skeleton.apply_bone_ik angleOffsetF acosF sinF atan2F s name target
        positive transformed = some s := by
  have hs : s.ragdoll.isSome = true := h
  have hn : s.ragdoll.isNone = false := by
    cases hr : s.ragdoll with
    | none => rw [hr] at hs; simp at hs
    | some r => rfl
  refine ⟨?_, ?_, ?_⟩
  · unfold Skeleton.set_local_transform
    rw [hn]
    simp
  · unfold Skeleton.set_world_offset
    rw [hn]
    simp
  · unfold Skeleton.apply_bone_ik
    rw [hs]
    simp

/-- Witness for C4 at the default skeleton carrying a ragdoll. -/
theorem ragdoll_freezes_setters_witness :
    Skeleton.set_local_transform
        { Skeleton.new defaultFigureSkeleton with ragdoll := some exampleRagdoll }
        ⟨-1, 1⟩
      = { Skeleton.new defaultFigureSkeleton with ragdoll := some exampleRagdoll }
    ∧ Skeleton.apply_bone_ik (fun _ _ => Vec2.zero) (fun _ => 0) (fun _ => 0)
        (fun _ _ => 0)
        { Skeleton.new defaultFigureSkeleton with ragdoll := some exampleRagdoll }
        "L.Foot" ⟨3, 4⟩ true true
      = some { Skeleton.new defaultFigureSkeleton with ragdoll := some exampleRagdoll } := by
  have h := ragdoll_freezes_setters (fun _ _ => Vec2.zero) (fun _ => 0)
    (fun _ => 0) (fun _ _ => 0)
    { Skeleton.new defaultFigureSkeleton with ragdoll := some exampleRagdoll }
    ⟨-1, 1⟩ ⟨0, 0⟩ ⟨3, 4⟩ "L.Foot" true true (by decide)
  exact ⟨h.1, h.2.2⟩

-- ===========================================================================
-- C1: after a step, every bone starts at its parent's end
-- ===========================================================================

theorem set_of_length_le {α : Type} (l : List α) (i : Nat) (v : α)
    (h : l.length ≤ i) : l.set i v = l := by
  induction l generalizing i with
  | nil => rfl
  | cons a t ih =>
    cases i with
    | zero => simp at h
    | succ n =>
      simp only [List.set]
      rw [ih n (by simpa using h)]

theorem getD_set_cases {α : Type} [Inhabited α] (l : List α) (i k : Nat)
    (v : α) :
    (l.set i v).getD k default = l.getD k default
    ∨ ((l.set i v).getD k default = v ∧ k = i ∧ i < l.length) := by
  by_cases hik : i = k
  · subst hik
    by_cases hlt : i < l.length
    · right
      exact ⟨getD_set_self _ _ _ hlt, rfl, hlt⟩
    · left
      rw [set_of_length_le _ _ _ (le_of_not_lt hlt)]
  · left
    exact getD_set_ne _ _ _ _ hik

theorem angleLoop_length (rest : List AnimationFrameBone) (L : List Nat)
    (bs : List Bone) : (Skeleton.angleLoop rest L bs).length = bs.length := by
  induction L generalizing bs with
  | nil => rfl
  | cons i t ih =>
    simp only [Skeleton.angleLoop]
    rw [ih, List.length_set]

theorem angleLoop_parent (rest : List AnimationFrameBone) (L : List Nat)
    (bs : List Bone) (k : Nat) :
    ((Skeleton.angleLoop rest L bs).getD k default).parent
      = (bs.getD k default).parent := by
  induction L generalizing bs with
  | nil => rfl
  | cons i t ih =>
    simp only [Skeleton.angleLoop]
    rw [ih]
    rcases getD_set_cases bs i k
        { bs.getD i default with angle := (rest.getD i ("", 0)).2 } with
      h | ⟨h, hk, hlt⟩
    · rw [h]
    · rw [h]
      subst hk
      rfl

theorem arrangeLoop_length (f : Rat → Rat → Vec2) (L : List Nat)
    (bs : List Bone) (bd : Vec2 × Vec2) :
    (Skeleton.arrangeLoop f L (bs, bd)).1.length = bs.length := by
  induction L generalizing bs bd with
  | nil => rfl
  | cons i t ih =>
    simp only [Skeleton.arrangeLoop]
    rw [ih, List.length_set]

theorem arrangeLoop_parent (f : Rat → Rat → Vec2) (L : List Nat)
    (bs : List Bone) (bd : Vec2 × Vec2) (k : Nat) :
    ((Skeleton.arrangeLoop f L (bs, bd)).1.getD k default).parent
      = (bs.getD k default).parent := by
  induction L generalizing bs bd with
  | nil => rfl
  | cons i t ih =>
    simp only [Skeleton.arrangeLoop]
    rw [ih]
    rcases getD_set_cases bs i k
        ((bs.getD i default).set (Skeleton.calculate_bone f bs i)) with
      h | ⟨h, hk, hlt⟩
    · rw [h]
    · rw [h]
      subst hk
      simp [Bone.set]

theorem arrangeLoop_not_mem (f : Rat → Rat → Vec2) (L : List Nat)
    (bs : List Bone) (bd : Vec2 × Vec2) (k : Nat) (hk : k ∉ L) :
    (Skeleton.arrangeLoop f L (bs, bd)).1.getD k default
      = bs.getD k default := by
  induction L generalizing bs bd with
  | nil => rfl
  | cons i t ih =>
    simp only [Skeleton.arrangeLoop]
    rw [ih _ _ (fun h => hk (List.mem_cons_of_mem _ h))]
    exact getD_set_ne _ _ _ _ (fun h => hk (by subst h; exact List.mem_cons_self i t))

/-- The core of C1: folding the child-last arrangement loop over a
duplicate-free index list in which every non-root parent is either
already finalized (not in the list) or processed earlier connects each
processed bone to its parent. -/
theorem arrangeLoop_chain (f : Rat → Rat → Vec2) :
    ∀ (L : List Nat) (bs : List Bone) (bd : Vec2 × Vec2),
    L.Nodup →
    (∀ i ∈ L, i < bs.length) →
    (∀ i ∈ L, (bs.getD i default).parent ≠ 255 →
      (bs.getD i default).parent < bs.length ∧
        ((bs.getD i default).parent ∉ L ∨
          (bs.getD i default).parent ∈ L.takeWhile (fun x => x ≠ i))) →
    ∀ i ∈ L, (bs.getD i default).parent ≠ 255 →
      ((Skeleton.arrangeLoop f L (bs, bd)).1.getD i default).start
        = ((Skeleton.arrangeLoop f L (bs, bd)).1.getD
            ((bs.getD i default).parent) default).end_ := by
  intro L
  induction L with
  | nil => intro bs bd _ _ _ i hi; simp at hi
  | cons i0 t ih =>
    intro bs bd hnodup hvalid horder i hi hpar
    have hnd := List.nodup_cons.mp hnodup
    have hi0lt : i0 < bs.length := hvalid i0 (List.mem_cons_self i0 t)
    simp only [Skeleton.arrangeLoop]
    rcases List.mem_cons.mp hi with hii0 | hit
    · -- the head bone: its parent is not in the list at all
      subst hii0
      rcases horder i hi hpar with ⟨hplt, hp⟩
      have hpn : (bs.getD i default).parent ∉ i :: t := by
        rcases hp with hpn | hptw
        · exact hpn
        · exfalso
          have htw : (i :: t).takeWhile (fun x => decide (x ≠ i)) = [] := by
            rw [List.takeWhile_cons_of_neg (by simp)]
          rw [htw] at hptw
          simp at hptw
      have hpne : (bs.getD i default).parent ≠ i :=
        fun h => hpn (by rw [h]; exact List.mem_cons_self i t)
      have hpt : (bs.getD i default).parent ∉ t :=
        fun h => hpn (List.mem_cons_of_mem _ h)
      rw [arrangeLoop_not_mem _ _ _ _ i hnd.1,
        getD_set_self _ _ _ hi0lt,
        arrangeLoop_not_mem _ _ _ _ _ hpt,
        getD_set_ne _ _ _ _ (Ne.symm hpne)]
      simp only [Bone.set, Skeleton.calculate_bone]
      have hpar' := hpar
      simp only [List.getD, List.get?_eq_getElem?] at hpar'
      simp [hpar']
    · -- a bone in the tail: use the induction hypothesis on the updated list
      have hii0ne : i ≠ i0 := fun h => hnd.1 (h ▸ hit)
      have hparents : ∀ j,
          (((bs.set i0 ((bs.getD i0 default).set
              (Skeleton.calculate_bone f bs i0))).getD j default)).parent
            = (bs.getD j default).parent := by
        intro j
        rcases getD_set_cases bs i0 j
            ((bs.getD i0 default).set (Skeleton.calculate_bone f bs i0)) with
          h | ⟨h, hk, hlt⟩
        · rw [h]
        · rw [h]
          subst hk
          simp [Bone.set]
      have hchain := ih (bs.set i0 ((bs.getD i0 default).set
          (Skeleton.calculate_bone f bs i0)))
        (⟨Vec2.mk (min (min bd.1.x (bs.getD i0 default).start.x)
              (bs.getD i0 default).end_.x)
            (min (min bd.1.y (bs.getD i0 default).start.y)
              (bs.getD i0 default).end_.y),
          Vec2.mk (max (max bd.2.x (bs.getD i0 default).start.x)
              (bs.getD i0 default).end_.x)
            (max (max bd.2.y (bs.getD i0 default).start.y)
              (bs.getD i0 default).end_.y)⟩)
        hnd.2
        (by
          intro j hj
          rw [List.length_set]
          exact hvalid j (List.mem_cons_of_mem _ hj))
        (by
          intro j hj hjpar
          rw [hparents j] at hjpar ⊢
          rcases horder j (List.mem_cons_of_mem _ hj) hjpar with ⟨hjlt, hjp⟩
          rw [List.length_set]
          refine ⟨hjlt, ?_⟩
          rcases hjp with hjn | hjtw
          · exact Or.inl (fun h => hjn (List.mem_cons_of_mem _ h))
          · have hji0 : i0 ≠ j := fun h => hnd.1 (h ▸ hj)
            rw [List.takeWhile_cons_of_pos (by simpa using hji0)] at hjtw
            rcases List.mem_cons.mp hjtw with hji | hjtw2
            · exact Or.inl (hji ▸ hnd.1)
            · exact Or.inr hjtw2)
        i hit
        (by rw [hparents i]; exact hpar)
      rw [hparents i] at hchain
      exact hchain

/-- C1: after Skeleton::step with no active ragdoll, every bone whose
parent index is not the 255 none-sentinel starts exactly at its parent
bone's end - the bones form a connected chain - provided the child-last
traversal order visits every bone exactly once with each parent before
its children (which Skeleton::new establishes for tree-shaped data and
which the witness checks for the default figure skeleton). -/
theorem skeleton_step_connects_bones (fisr : Rat → Rat)
    (isLeftF : Vec2 → Vec2 → Vec2 → Bool) (angleOffsetF : Rat → Rat → Vec2)
    (s : Skeleton) (dt : Rat) (gravity : Vec2)
    (collider : Particle → Particle)
    (hrag : s.ragdoll = none)
    (hnodup : s.child_last_indices.Nodup)
    (hcover : ∀ i, i < s.bones.length → i ∈ s.child_last_indices)
    (hvalid : ∀ i ∈ s.child_last_indices, i < s.bones.length)
    (horder : ∀ i ∈ s.child_last_indices,
      (s.bones.getD i default).parent ≠ 255 →
        (s.bones.getD i default).parent < s.bones.length ∧
          (s.bones.getD i default).parent ∈
            s.child_last_indices.takeWhile (fun x => x ≠ i)) :
    ∀ i, i < s.bones.length → (s.bones.getD i default).parent ≠ 255 →
      ((Skeleton.step fisr isLeftF angleOffsetF s dt gravity collider).bones.getD
          i default).start
        = ((Skeleton.step fisr isLeftF angleOffsetF s dt gravity
              collider).bones.getD ((s.bones.getD i default).parent)
            default).end_ := by
  intro i hi hpar
  have hstep : (Skeleton.step fisr isLeftF angleOffsetF s dt gravity
      collider).bones
      = (Skeleton.arrangeLoop angleOffsetF s.child_last_indices
          (Skeleton.angleLoop
            (s.animator.update dt
              (s.data.reset_animation_bones s.bone_rest_angles)).2
            s.child_last_indices s.bones,
          (⟨10000, 10000⟩, ⟨-10000, -10000⟩))).1 := by
    simp only [Skeleton.step, hrag]
  have hparents : ∀ j,
      ((Skeleton.angleLoop
          (s.animator.update dt
            (s.data.reset_animation_bones s.bone_rest_angles)).2
          s.child_last_indices s.bones).getD j default).parent
        = (s.bones.getD j default).parent :=
    fun j => angleLoop_parent _ _ _ j
  have hlen : (Skeleton.angleLoop
      (s.animator.update dt
        (s.data.reset_animation_bones s.bone_rest_angles)).2
      s.child_last_indices s.bones).length = s.bones.length :=
    angleLoop_length _ _ _
  have hchain := arrangeLoop_chain angleOffsetF s.child_last_indices
    (Skeleton.angleLoop
      (s.animator.update dt
        (s.data.reset_animation_bones s.bone_rest_angles)).2
      s.child_last_indices s.bones)
    (⟨10000, 10000⟩, ⟨-10000, -10000⟩)
    hnodup
    (by intro j hj; rw [hlen]; exact hvalid j hj)
    (by
      intro j hj hjpar
      rw [hparents j] at hjpar ⊢
      rcases horder j hj hjpar with ⟨hjlt, hjtw⟩
      rw [hlen]
      exact ⟨hjlt, Or.inr hjtw⟩)
    i (hcover i hi)
    (by rw [hparents i]; exact hpar)
  rw [hparents i] at hchain
  rw [hstep]
  exact hchain

/-- Witness for C1 at the default figure skeleton: after a step, the Back
bone (index 1) starts exactly at the end of its parent, the Root bone
(index 0). -/
theorem skeleton_step_connects_bones_witness :
    ((Skeleton.step (fun _ => 0) (fun _ _ _ => false) (fun _ _ => Vec2.zero)
        (Skeleton.new defaultFigureSkeleton) (1/60) ⟨0, 450⟩ id).bones.getD 1
        default).start
      = ((Skeleton.step (fun _ => 0) (fun _ _ _ => false) (fun _ _ => Vec2.zero)
          (Skeleton.new defaultFigureSkeleton) (1/60) ⟨0, 450⟩ id).bones.getD
          (((Skeleton.new defaultFigureSkeleton).bones.getD 1 default).parent)
          default).end_ :=
  skeleton_step_connects_bones (fun _ => 0) (fun _ _ _ => false)
    (fun _ _ => Vec2.zero) (Skeleton.new defaultFigureSkeleton) (1/60)
    ⟨0, 450⟩ id (by decide) (by decide) (by decide) (by decide) (by decide)
    1 (by decide) (by decide)
